import Mathlib

/-!
Verification of the Bitcoin Bollinger-band alert dashboard.

The core logic lives in two places of the source:

* `calculateBollingerBands` (src/services/geminiService.ts, lines 47-63): a
  pure function computing the Bollinger bands of a price window, or `null`
  when fewer than `period` prices are available.  JavaScript numbers are
  modelled as real numbers, `Math.sqrt` as `Real.sqrt`.

* `pollPrice` (the App component, lines 78-128): one poll step.  It fetches
  the current price (a fallible operation, modelled by an `Option ℝ`
  argument), appends it to the bounded price history, recomputes the bands
  and runs the alert-detection block, guarded by the notification permission
  and a 5-minute cooldown.  The browser state touched by the callback
  (price history, bands, current price, alert list, last-alert timestamp)
  is gathered in an `AppState`; dispatched notifications are returned as an
  output list.  `Date.now()` is the `now : ℤ` argument (milliseconds);
  `price.toLocaleString()` and `new Date().toLocaleTimeString()` are the
  opaque string arguments `priceStr` and `timeStr`.
-/

/-- The `{ upper, middle, lower }` record returned by
`calculateBollingerBands`. -/
structure Bands where
  upper : ℝ
  middle : ℝ
  lower : ℝ

/-- JavaScript `array.slice(-p)`: the last `p` elements, except that
`slice(-0) = slice(0)` returns the whole array. -/
def sliceLast (data : List ℝ) (p : ℕ) : List ℝ :=
  if p = 0 then data else data.drop (data.length - p)

/-- `calculateBollingerBands` from src/services/geminiService.ts.  The
source defaults are `period = 20`, `stdDev = 2`; callers in this file pass
them explicitly.  `slice.reduce((acc, val) => acc + val, 0)` is
`List.foldl`, `(val - middle) ** 2` is `(val - middle) ^ 2`. -/
noncomputable def calculateBollingerBands (data : List ℝ) (period : ℕ)
    (stdDev : ℝ) : Option Bands :=
  if data.length < period then
    none
  else
    let slice := sliceLast data period
    let sum := slice.foldl (fun acc val => acc + val) 0
    let middle := sum / (period : ℝ)
    let variance := slice.foldl (fun acc val => acc + (val - middle) ^ 2) 0 / (period : ℝ)
    let sd := Real.sqrt variance
    some { upper := middle + sd * stdDev, middle := middle, lower := middle - sd * stdDev }

/-- The browser notification permission, as observed by the App component
(`NotificationPermission | PermissionState`). -/
inductive PermissionState where
  | state_default
  | granted
  | denied
  | prompt
  deriving DecidableEq

/-- One entry of the `alerts` list: `{ message, time }`. -/
structure AlertRecord where
  message : String
  time : String

/-- A notification handed to the dispatcher (`title` plus the `body` of the
options object; the icon is a constant and is omitted). -/
structure NotificationMsg where
  title : String
  body : String

/-- The component state mutated by `pollPrice`: the `priceHistory`,
`bbands`, `currentPrice` and `alerts` React states plus the
`lastAlertTime` ref (milliseconds since the epoch). -/
structure AppState where
  priceHistory : List ℝ
  bbands : Option Bands
  currentPrice : Option ℝ
  alerts : List AlertRecord
  lastAlertTime : ℤ

/-- `COOLDOWN_PERIOD = 5 * 60 * 1000` milliseconds. -/
def COOLDOWN_PERIOD : ℤ := 5 * 60 * 1000

/-- Lines 89-94 of the App component: the alert message chosen for a price
against the bands, upper branch first, both comparisons inclusive.
`priceStr` stands for `price.toLocaleString()`. -/
noncomputable def alertMessage (price : ℝ) (b : Bands) (priceStr : String) :
    Option String :=
  if price ≥ b.upper then
    some ("Price touched Upper Band at $" ++ priceStr)
  else if price ≤ b.lower then
    some ("Price touched Lower Band at $" ++ priceStr)
  else
    none

/-- `pollPrice` (App component, lines 78-128) as a state transition.
`fetchResult` is the outcome of `fetchBitcoinPrice()` (`none` when the
fetch throws, in which case the catch block leaves all state unchanged).
On success the history keeps the last 19 prior entries and appends the new
price (`[...prevHistory.slice(-19), price]`), the bands are recomputed with
the default `period = 20`, `stdDev = 2`, and the detection block runs only
when permission is granted, the bands exist and the cooldown has elapsed
strictly; an emitted alert is prepended to the first nine old entries
(`[record, ...prev.slice(0, 9)]`) and updates `lastAlertTime` to `now`. -/
noncomputable def pollPrice (st : AppState) (fetchResult : Option ℝ)
    (notificationStatus : PermissionState) (now : ℤ)
    (priceStr timeStr : String) : AppState × List NotificationMsg :=
  match fetchResult with
  | none => (st, [])
  | some price =>
    let newHistory := sliceLast st.priceHistory 19 ++ [price]
    let newBbands := calculateBollingerBands newHistory 20 2
    let quiet : AppState × List NotificationMsg :=
      ({ priceHistory := newHistory, bbands := newBbands,
         currentPrice := some price, alerts := st.alerts,
         lastAlertTime := st.lastAlertTime }, [])
    if notificationStatus = PermissionState.granted then
      match newBbands with
      | some b =>
        if now - st.lastAlertTime > COOLDOWN_PERIOD then
          match alertMessage price b priceStr with
          | some msg =>
            ({ priceHistory := newHistory, bbands := newBbands,
               currentPrice := some price,
               alerts := { message := msg, time := timeStr } :: st.alerts.take 9,
               lastAlertTime := now },
             [{ title := "Bitcoin Price Alert!", body := msg }])
          | none => quiet
        else quiet
      | none => quiet
    else quiet

/-- Folding `acc + val` over a list adds the list sum. -/
lemma foldl_add_eq_sum (l : List ℝ) (a : ℝ) :
    l.foldl (fun acc val => acc + val) a = a + l.sum := by
  induction l generalizing a with
  | nil => simp
  | cons x xs ih => simp [ih]; ring

/-- Folding `acc + (val - m) ^ 2` over a list adds the sum of squared
deviations. -/
lemma foldl_add_sq_eq_sum (m : ℝ) (l : List ℝ) (a : ℝ) :
    l.foldl (fun acc val => acc + (val - m) ^ 2) a
      = a + (l.map (fun val => (val - m) ^ 2)).sum := by
  induction l generalizing a with
  | nil => simp
  | cons x xs ih => simp [ih]; ring

/-- Closed form of `calculateBollingerBands` when enough data is present:
the window is the last `period` elements, the middle band is its mean, and
the outer bands are offset by `sqrt` of the population variance times the
multiplier. -/
lemma calculateBollingerBands_eq (data : List ℝ) (period : ℕ) (stdDev : ℝ)
    (hp : period ≠ 0) (hlen : period ≤ data.length) :
    calculateBollingerBands data period stdDev =
      some { upper := (data.drop (data.length - period)).sum / (period : ℝ) +
               Real.sqrt (((data.drop (data.length - period)).map
                 (fun val => (val - (data.drop (data.length - period)).sum / (period : ℝ)) ^ 2)).sum
                   / (period : ℝ)) * stdDev,
             middle := (data.drop (data.length - period)).sum / (period : ℝ),
             lower := (data.drop (data.length - period)).sum / (period : ℝ) -
               Real.sqrt (((data.drop (data.length - period)).map
                 (fun val => (val - (data.drop (data.length - period)).sum / (period : ℝ)) ^ 2)).sum
                   / (period : ℝ)) * stdDev } := by
  have hnl : ¬ data.length < period := Nat.not_lt.mpr hlen
  unfold calculateBollingerBands sliceLast
  rw [if_neg hnl, if_neg hp]
  simp only [foldl_add_eq_sum, foldl_add_sq_eq_sum, zero_add]

/-- Inversion: any result of `calculateBollingerBands` has the shape
`⟨m + s * stdDev, m, m - s * stdDev⟩` with `s ≥ 0`. -/
lemma calculateBollingerBands_some_shape (data : List ℝ) (period : ℕ)
    (stdDev : ℝ) (b : Bands)
    (h : calculateBollingerBands data period stdDev = some b) :
    ∃ m s : ℝ, 0 ≤ s ∧ b = ⟨m + s * stdDev, m, m - s * stdDev⟩ := by
  unfold calculateBollingerBands at h
  by_cases hlt : data.length < period
  · rw [if_pos hlt] at h
    exact absurd h (by simp)
  · rw [if_neg hlt] at h
    simp only [Option.some.injEq] at h
    exact ⟨_, _, Real.sqrt_nonneg _, h.symm⟩

/-- The mean of a window whose elements all equal `v` is `v`. -/
lemma flat_window_mean (data : List ℝ) (period : ℕ) (v : ℝ)
    (hp : period ≠ 0) (hlen : period ≤ data.length)
    (hflat : ∀ x ∈ data.drop (data.length - period), x = v) :
    (data.drop (data.length - period)).sum / (period : ℝ) = v := by
  have hdl : (data.drop (data.length - period)).length = period := by
    rw [List.length_drop]; omega
  have hsum : (data.drop (data.length - period)).sum = (period : ℝ) * v := by
    rw [List.sum_eq_card_nsmul _ v hflat, hdl, nsmul_eq_mul]
  rw [hsum]
  field_simp

/-- The sum of squared deviations over a flat window is zero. -/
lemma flat_window_sq_sum (data : List ℝ) (period : ℕ) (v : ℝ)
    (hp : period ≠ 0) (hlen : period ≤ data.length)
    (hflat : ∀ x ∈ data.drop (data.length - period), x = v) :
    ((data.drop (data.length - period)).map
      (fun val => (val - (data.drop (data.length - period)).sum / (period : ℝ)) ^ 2)).sum = 0 := by
  apply List.sum_eq_zero
  intro x hx
  rcases List.mem_map.mp hx with ⟨y, hy, rfl⟩
  rw [hflat y hy, flat_window_mean data period v hp hlen hflat]
  ring

/-- On a window whose last `period` elements all equal `v`, the bands
collapse to `⟨v, v, v⟩`. -/
lemma calculateBollingerBands_flat (data : List ℝ) (period : ℕ) (stdDev v : ℝ)
    (hp : period ≠ 0) (hlen : period ≤ data.length)
    (hflat : ∀ x ∈ data.drop (data.length - period), x = v) :
    calculateBollingerBands data period stdDev = some ⟨v, v, v⟩ := by
  rw [calculateBollingerBands_eq data period stdDev hp hlen,
    flat_window_sq_sum data period v hp hlen hflat,
    flat_window_mean data period v hp hlen hflat]
  simp

/-- Every poll either dispatches nothing, or dispatches exactly one
notification, strictly after the cooldown, setting `lastAlertTime := now`
and prepending one record to the first nine old alerts. -/
lemma pollPrice_cases (st : AppState) (fr : Option ℝ) (ns : PermissionState)
    (now : ℤ) (ps ts : String) :
    ((pollPrice st fr ns now ps ts).2 = [] ∧
     (pollPrice st fr ns now ps ts).1.alerts = st.alerts ∧
     (pollPrice st fr ns now ps ts).1.lastAlertTime = st.lastAlertTime) ∨
    ((pollPrice st fr ns now ps ts).2.length = 1 ∧
     now - st.lastAlertTime > COOLDOWN_PERIOD ∧
     (pollPrice st fr ns now ps ts).1.lastAlertTime = now ∧
     ∃ msg, (pollPrice st fr ns now ps ts).1.alerts
       = { message := msg, time := ts } :: st.alerts.take 9) := by
  rcases fr with _ | price
  · left; exact ⟨rfl, rfl, rfl⟩
  · by_cases hg : ns = PermissionState.granted
    · rcases hB : calculateBollingerBands (sliceLast st.priceHistory 19 ++ [price]) 20 2
        with _ | b
      · left; simp [pollPrice, hg, hB]
      · by_cases hC : now - st.lastAlertTime > COOLDOWN_PERIOD
        · rcases hM : alertMessage price b ps with _ | msg
          · left; simp [pollPrice, hg, hB, hC, hM]
          · right
            refine ⟨?_, hC, ?_, msg, ?_⟩ <;> simp [pollPrice, hg, hB, hC, hM]
        · left; simp [pollPrice, hg, hB, hC]
    · left; simp [pollPrice, hg]

/-- A failed poll returns the state untouched; a successful poll always
replaces the history by the last 19 prior entries plus the new price. -/
lemma pollPrice_history (st : AppState) (fr : Option ℝ) (ns : PermissionState)
    (now : ℤ) (ps ts : String) :
    (fr = none → (pollPrice st fr ns now ps ts).1 = st) ∧
    (∀ price, fr = some price →
      (pollPrice st fr ns now ps ts).1.priceHistory
        = sliceLast st.priceHistory 19 ++ [price]) := by
  constructor
  · rintro rfl; rfl
  · rintro price rfl
    by_cases hg : ns = PermissionState.granted
    · rcases hB : calculateBollingerBands (sliceLast st.priceHistory 19 ++ [price]) 20 2
        with _ | b
      · simp [pollPrice, hg, hB]
      · by_cases hC : now - st.lastAlertTime > COOLDOWN_PERIOD
        · rcases hM : alertMessage price b ps with _ | msg
          · simp [pollPrice, hg, hB, hC, hM]
          · simp [pollPrice, hg, hB, hC, hM]
        · simp [pollPrice, hg, hB, hC]
    · simp [pollPrice, hg]

/-- `slice(-p)` keeps at most `p` elements (for `p ≠ 0`). -/
lemma sliceLast_length_le (l : List ℝ) (p : ℕ) (hp : p ≠ 0) :
    (sliceLast l p).length ≤ p := by
  unfold sliceLast
  rw [if_neg hp, List.length_drop]
  omega

/-- Concrete emitting poll: nineteen 10s of prior history plus a fetched
price of 10 form a flat 20-window with bands `⟨10, 10, 10⟩`; with
permission granted and the cooldown elapsed, the upper-band alert fires. -/
lemma pollPrice_concrete :
    pollPrice ⟨List.replicate 19 (10 : ℝ), none, none, [], 0⟩ (some 10)
        PermissionState.granted 300001 "10" "t" =
      ({ priceHistory := List.replicate 19 (10 : ℝ) ++ [10],
         bbands := some ⟨10, 10, 10⟩,
         currentPrice := some 10,
         alerts := [{ message := "Price touched Upper Band at $" ++ "10", time := "t" }],
         lastAlertTime := 300001 },
       [{ title := "Bitcoin Price Alert!",
          body := "Price touched Upper Band at $" ++ "10" }]) := by
  have hS : sliceLast (List.replicate 19 (10 : ℝ)) 19 = List.replicate 19 (10 : ℝ) := by
    simp [sliceLast]
  have hd : (List.replicate 19 (10 : ℝ) ++ [10]).drop
      ((List.replicate 19 (10 : ℝ) ++ [10]).length - 20)
        = List.replicate 19 (10 : ℝ) ++ [10] := by
    have hlen : (List.replicate 19 (10 : ℝ) ++ [10]).length = 20 := by simp
    rw [hlen]
    simp
  have hB : calculateBollingerBands (List.replicate 19 (10 : ℝ) ++ [10]) 20 2
      = some ⟨10, 10, 10⟩ := by
    apply calculateBollingerBands_flat _ 20 2 10 (by norm_num) (by simp)
    intro x hx
    rw [hd] at hx
    rcases List.mem_append.mp hx with h | h
    · exact List.eq_of_mem_replicate h
    · simpa using h
  have hA : alertMessage 10 ⟨10, 10, 10⟩ "10"
      = some ("Price touched Upper Band at $" ++ "10") := by
    unfold alertMessage
    rw [if_pos (le_refl (10 : ℝ))]
  have hC : ((300001 : ℤ) - 0 > COOLDOWN_PERIOD) = True := by
    simp [COOLDOWN_PERIOD]
  simp only [pollPrice, hS, hB, hA, hC, if_true]
  norm_num

/-- C1: with at least `period` prices, `calculateBollingerBands` returns a
result whose middle band is the arithmetic mean of the last `period`
elements, and whose outer bands are offset from the middle by
`sqrt (population variance) * stdDev` (divisor `period`). -/
theorem calculateBollingerBands_correct (data : List ℝ) (period : ℕ)
    (stdDev : ℝ) (hp : 0 < period) (hlen : period ≤ data.length) :
    ∃ b : Bands,
      calculateBollingerBands data period stdDev = some b ∧
      b.middle = (data.drop (data.length - period)).sum / (period : ℝ) ∧
      b.upper = b.middle + Real.sqrt (((data.drop (data.length - period)).map
        (fun val => (val - b.middle) ^ 2)).sum / (period : ℝ)) * stdDev ∧
      b.lower = b.middle - Real.sqrt (((data.drop (data.length - period)).map
        (fun val => (val - b.middle) ^ 2)).sum / (period : ℝ)) * stdDev := by
  refine ⟨_, calculateBollingerBands_eq data period stdDev hp.ne' hlen, rfl, rfl, rfl⟩

/-- C1 witness: the theorem instantiated at the two-element window
`[1, 3]` with `period = 2` and `stdDev = 2`. -/
theorem calculateBollingerBands_correct_witness :
    ∃ b : Bands,
      calculateBollingerBands [(1 : ℝ), 3] 2 2 = some b ∧
      b.middle = (([(1 : ℝ), 3]).drop (([(1 : ℝ), 3]).length - 2)).sum / ((2 : ℕ) : ℝ) ∧
      b.upper = b.middle + Real.sqrt (((([(1 : ℝ), 3]).drop (([(1 : ℝ), 3]).length - 2)).map
        (fun val => (val - b.middle) ^ 2)).sum / ((2 : ℕ) : ℝ)) * 2 ∧
      b.lower = b.middle - Real.sqrt (((([(1 : ℝ), 3]).drop (([(1 : ℝ), 3]).length - 2)).map
        (fun val => (val - b.middle) ^ 2)).sum / ((2 : ℕ) : ℝ)) * 2 :=
  calculateBollingerBands_correct [(1 : ℝ), 3] 2 2 (by norm_num) (by norm_num)

/-- C2: with fewer than `period` prices, `calculateBollingerBands`
returns the absence value `none`. -/
theorem calculateBollingerBands_insufficient (data : List ℝ) (period : ℕ)
    (stdDev : ℝ) (h : data.length < period) :
    calculateBollingerBands data period stdDev = none := by
  unfold calculateBollingerBands
  rw [if_pos h]

/-- C2 witness: a single price with the default `period = 20` yields
`none`. -/
theorem calculateBollingerBands_insufficient_witness :
    calculateBollingerBands [(1 : ℝ)] 20 2 = none :=
  calculateBollingerBands_insufficient [(1 : ℝ)] 20 2 (by norm_num)

/-- C3: band touches are inclusive and the upper branch is checked first:
a price at or above `upper` yields the Upper Band message, a price
strictly below `upper` but at or below `lower` yields the Lower Band
message, and a price satisfying both conditions resolves to Upper Band. -/
theorem alertMessage_touch (price : ℝ) (b : Bands) (priceStr : String) :
    (price ≥ b.upper →
      alertMessage price b priceStr
        = some ("Price touched Upper Band at $" ++ priceStr)) ∧
    (price < b.upper → price ≤ b.lower →
      alertMessage price b priceStr
        = some ("Price touched Lower Band at $" ++ priceStr)) ∧
    (price ≥ b.upper → price ≤ b.lower →
      alertMessage price b priceStr
        = some ("Price touched Upper Band at $" ++ priceStr)) := by
  refine ⟨fun hu => ?_, fun hu hl => ?_, fun hu _ => ?_⟩
  · unfold alertMessage
    rw [if_pos hu]
  · unfold alertMessage
    rw [if_neg (not_le.mpr hu), if_pos hl]
  · unfold alertMessage
    rw [if_pos hu]

/-- C3 witness: each branch exercised at concrete prices and bands,
including the degenerate flat bands `⟨10, 10, 10⟩` where a price of 10
satisfies both conditions and resolves to Upper Band. -/
theorem alertMessage_touch_witness :
    alertMessage 4 ⟨4, 3, 2⟩ "4" = some ("Price touched Upper Band at $" ++ "4") ∧
    alertMessage 2 ⟨4, 3, 2⟩ "2" = some ("Price touched Lower Band at $" ++ "2") ∧
    alertMessage 10 ⟨10, 10, 10⟩ "10" = some ("Price touched Upper Band at $" ++ "10") :=
  ⟨(alertMessage_touch 4 ⟨4, 3, 2⟩ "4").1 (by norm_num),
   (alertMessage_touch 2 ⟨4, 3, 2⟩ "2").2.1 (by norm_num) (by norm_num),
   (alertMessage_touch 10 ⟨10, 10, 10⟩ "10").2.2 (by norm_num) (by norm_num)⟩

/-- C4: a poll dispatches an alert only when `now - lastAlertTime`
strictly exceeds the 5-minute cooldown, and dispatching sets
`lastAlertTime := now`; consequently two consecutive polls whose times lie
within one cooldown window dispatch at most one alert in total. -/
theorem pollPrice_cooldown (st : AppState) (fr fr2 : Option ℝ)
    (ns ns2 : PermissionState) (now now2 : ℤ) (ps ts ps2 ts2 : String) :
    ((pollPrice st fr ns now ps ts).2 ≠ [] →
      now - st.lastAlertTime > COOLDOWN_PERIOD ∧
      (pollPrice st fr ns now ps ts).1.lastAlertTime = now) ∧
    (now2 - now ≤ COOLDOWN_PERIOD →
      (pollPrice st fr ns now ps ts).2.length +
        (pollPrice (pollPrice st fr ns now ps ts).1 fr2 ns2 now2 ps2 ts2).2.length ≤ 1) := by
  constructor
  · intro hne
    rcases pollPrice_cases st fr ns now ps ts with ⟨h0, -, -⟩ | ⟨-, h1, h2, -⟩
    · exact absurd h0 hne
    · exact ⟨h1, h2⟩
  · intro h12
    rcases pollPrice_cases st fr ns now ps ts with ⟨h0, -, -⟩ | ⟨hl, h1, h2, -⟩
    · rw [h0]
      rcases pollPrice_cases (pollPrice st fr ns now ps ts).1 fr2 ns2 now2 ps2 ts2
        with ⟨g0, -, -⟩ | ⟨gl, -, -, -⟩
      · rw [g0]; simp
      · rw [gl]; simp
    · rcases pollPrice_cases (pollPrice st fr ns now ps ts).1 fr2 ns2 now2 ps2 ts2
        with ⟨g0, -, -⟩ | ⟨gl, g1, -, -⟩
      · rw [hl, g0]; simp
      · exfalso
        rw [h2] at g1
        omega

/-- C4 witness: the cooldown theorem instantiated at a concrete emitting
poll at `now = 300001` followed by a poll at `now = 300002`. -/
theorem pollPrice_cooldown_witness :
    ((pollPrice ⟨List.replicate 19 (10 : ℝ), none, none, [], 0⟩ (some 10)
        PermissionState.granted 300001 "10" "t").2 ≠ [] ∧
     (300001 : ℤ) - 0 > COOLDOWN_PERIOD ∧
     (pollPrice ⟨List.replicate 19 (10 : ℝ), none, none, [], 0⟩ (some 10)
        PermissionState.granted 300001 "10" "t").1.lastAlertTime = 300001) ∧
    ((300002 : ℤ) - 300001 ≤ COOLDOWN_PERIOD ∧
     (pollPrice ⟨List.replicate 19 (10 : ℝ), none, none, [], 0⟩ (some 10)
        PermissionState.granted 300001 "10" "t").2.length +
       (pollPrice (pollPrice ⟨List.replicate 19 (10 : ℝ), none, none, [], 0⟩ (some 10)
           PermissionState.granted 300001 "10" "t").1 (some 10)
           PermissionState.granted 300002 "10" "t").2.length ≤ 1) := by
  have hne : (pollPrice ⟨List.replicate 19 (10 : ℝ), none, none, [], 0⟩ (some 10)
      PermissionState.granted 300001 "10" "t").2 ≠ [] := by
    rw [pollPrice_concrete]
    simp
  have hmain := pollPrice_cooldown ⟨List.replicate 19 (10 : ℝ), none, none, [], 0⟩
    (some 10) (some 10) PermissionState.granted PermissionState.granted
    300001 300002 "10" "t" "10" "t"
  have h1 := hmain.1 hne
  exact ⟨⟨hne, h1.1, h1.2⟩, by norm_num [COOLDOWN_PERIOD],
    hmain.2 (by norm_num [COOLDOWN_PERIOD])⟩

/-- C5: every poll keeps the history within 20 entries (at most the 19
most recent prior entries plus the new price) and the alert list within 10
entries (a new record is prepended to the first nine old ones). -/
theorem pollPrice_bounded (st : AppState) (fr : Option ℝ)
    (ns : PermissionState) (now : ℤ) (ps ts : String)
    (hh : st.priceHistory.length ≤ 20) (ha : st.alerts.length ≤ 10) :
    (pollPrice st fr ns now ps ts).1.priceHistory.length ≤ 20 ∧
    (pollPrice st fr ns now ps ts).1.alerts.length ≤ 10 ∧
    (∀ price, fr = some price →
      (pollPrice st fr ns now ps ts).1.priceHistory
        = sliceLast st.priceHistory 19 ++ [price]) ∧
    ((pollPrice st fr ns now ps ts).1.alerts = st.alerts ∨
     ∃ msg, (pollPrice st fr ns now ps ts).1.alerts
       = { message := msg, time := ts } :: st.alerts.take 9) := by
  obtain ⟨hnone, hsome⟩ := pollPrice_history st fr ns now ps ts
  refine ⟨?_, ?_, hsome, ?_⟩
  · rcases fr with _ | price
    · rw [hnone rfl]; exact hh
    · rw [hsome price rfl]
      have h19 := sliceLast_length_le st.priceHistory 19 (by norm_num)
      simp only [List.length_append, List.length_cons, List.length_nil]
      omega
  · rcases pollPrice_cases st fr ns now ps ts with ⟨-, h0, -⟩ | ⟨-, -, -, msg, hm⟩
    · rw [h0]; exact ha
    · rw [hm]
      simp only [List.length_cons, List.length_take]
      omega
  · rcases pollPrice_cases st fr ns now ps ts with ⟨-, h0, -⟩ | ⟨-, -, -, msg, hm⟩
    · exact Or.inl h0
    · exact Or.inr ⟨msg, hm⟩

/-- C5 witness: the theorem instantiated at an empty starting state and a
fetched price of 5. -/
theorem pollPrice_bounded_witness :
    (pollPrice ⟨[], none, none, [], 0⟩ (some 5)
        PermissionState.state_default 0 "5" "t").1.priceHistory.length ≤ 20 ∧
    (pollPrice ⟨[], none, none, [], 0⟩ (some 5)
        PermissionState.state_default 0 "5" "t").1.alerts.length ≤ 10 ∧
    (∀ price : ℝ, some (5 : ℝ) = some price →
      (pollPrice ⟨[], none, none, [], 0⟩ (some 5)
          PermissionState.state_default 0 "5" "t").1.priceHistory
        = sliceLast [] 19 ++ [price]) ∧
    ((pollPrice ⟨[], none, none, [], 0⟩ (some 5)
        PermissionState.state_default 0 "5" "t").1.alerts = [] ∨
     ∃ msg, (pollPrice ⟨[], none, none, [], 0⟩ (some 5)
         PermissionState.state_default 0 "5" "t").1.alerts
       = [{ message := msg, time := "t" }]) :=
  pollPrice_bounded ⟨[], none, none, [], 0⟩ (some 5)
    PermissionState.state_default 0 "5" "t" (by simp) (by simp)

/-- C6: when the permission state is anything other than `granted`, or the
recomputed bands are absent, the detection block is skipped entirely: no
notification is dispatched, the alert list and `lastAlertTime` are
unchanged. -/
theorem pollPrice_permission_gate (st : AppState) (price : ℝ)
    (ns : PermissionState) (now : ℤ) (ps ts : String)
    (h : ns ≠ PermissionState.granted ∨
      calculateBollingerBands (sliceLast st.priceHistory 19 ++ [price]) 20 2 = none) :
    (pollPrice st (some price) ns now ps ts).2 = [] ∧
    (pollPrice st (some price) ns now ps ts).1.alerts = st.alerts ∧
    (pollPrice st (some price) ns now ps ts).1.lastAlertTime = st.lastAlertTime := by
  rcases h with hg | hB
  · refine ⟨?_, ?_, ?_⟩ <;> simp [pollPrice, hg]
  · by_cases hg : ns = PermissionState.granted
    · refine ⟨?_, ?_, ?_⟩ <;> simp [pollPrice, hg, hB]
    · refine ⟨?_, ?_, ?_⟩ <;> simp [pollPrice, hg]

/-- C6 witness: with permission `denied`, a poll from an empty state
dispatches nothing and leaves alerts and `lastAlertTime` alone. -/
theorem pollPrice_permission_gate_witness :
    (pollPrice ⟨[], none, none, [], 0⟩ (some 10)
        PermissionState.denied 0 "10" "t").2 = [] ∧
    (pollPrice ⟨[], none, none, [], 0⟩ (some 10)
        PermissionState.denied 0 "10" "t").1.alerts = [] ∧
    (pollPrice ⟨[], none, none, [], 0⟩ (some 10)
        PermissionState.denied 0 "10" "t").1.lastAlertTime = 0 :=
  pollPrice_permission_gate ⟨[], none, none, [], 0⟩ 10
    PermissionState.denied 0 "10" "t" (Or.inl (by decide))

/-- C7: when the price fetch fails, the catch block leaves every piece of
state unchanged and dispatches nothing: the poll is a no-op. -/
theorem pollPrice_fetch_failure (st : AppState)
    (notificationStatus : PermissionState) (now : ℤ)
    (priceStr timeStr : String) :
    pollPrice st none notificationStatus now priceStr timeStr = (st, []) :=
  rfl

/-- C8: whenever `calculateBollingerBands` returns a result, the bands are
symmetric: `upper - middle = middle - lower`. -/
theorem calculateBollingerBands_symmetric (data : List ℝ) (period : ℕ)
    (stdDev : ℝ) (b : Bands)
    (h : calculateBollingerBands data period stdDev = some b) :
    b.upper - b.middle = b.middle - b.lower := by
  rcases calculateBollingerBands_some_shape data period stdDev b h with ⟨m, s, _, rfl⟩
  ring

/-- C8 witness: symmetry at the flat window `[1, 1]` with `period = 2`,
`stdDev = 2`, whose bands are `⟨1, 1, 1⟩`. -/
theorem calculateBollingerBands_symmetric_witness :
    calculateBollingerBands [(1 : ℝ), 1] 2 2 = some ⟨1, 1, 1⟩ ∧
    (Bands.mk (1 : ℝ) 1 1).upper - (Bands.mk (1 : ℝ) 1 1).middle
      = (Bands.mk (1 : ℝ) 1 1).middle - (Bands.mk (1 : ℝ) 1 1).lower := by
  have h : calculateBollingerBands [(1 : ℝ), 1] 2 2 = some ⟨1, 1, 1⟩ := by
    apply calculateBollingerBands_flat [(1 : ℝ), 1] 2 2 1 (by norm_num) (by norm_num)
    intro x hx
    simpa using hx
  exact ⟨h, calculateBollingerBands_symmetric [(1 : ℝ), 1] 2 2 ⟨1, 1, 1⟩ h⟩

/-- C9: when the last `period` elements of the input all equal `v`, the
standard deviation is zero and the bands collapse to
`upper = middle = lower = v`. -/
theorem calculateBollingerBands_flat_window (data : List ℝ) (period : ℕ)
    (stdDev v : ℝ) (hp : 0 < period) (hlen : period ≤ data.length)
    (hflat : ∀ x ∈ data.drop (data.length - period), x = v) :
    Real.sqrt (((data.drop (data.length - period)).map
      (fun val => (val - (data.drop (data.length - period)).sum / (period : ℝ)) ^ 2)).sum
        / (period : ℝ)) = 0 ∧
    calculateBollingerBands data period stdDev = some ⟨v, v, v⟩ := by
  constructor
  · rw [flat_window_sq_sum data period v hp.ne' hlen hflat]
    simp
  · exact calculateBollingerBands_flat data period stdDev v hp.ne' hlen hflat

/-- C9 witness: the theorem instantiated at the flat window `[10, 10]`
with `period = 2` and `stdDev = 2`. -/
theorem calculateBollingerBands_flat_window_witness :
    Real.sqrt (((([(10 : ℝ), 10]).drop (([(10 : ℝ), 10]).length - 2)).map
      (fun val => (val - (([(10 : ℝ), 10]).drop (([(10 : ℝ), 10]).length - 2)).sum
        / ((2 : ℕ) : ℝ)) ^ 2)).sum / ((2 : ℕ) : ℝ)) = 0 ∧
    calculateBollingerBands [(10 : ℝ), 10] 2 2 = some ⟨10, 10, 10⟩ :=
  calculateBollingerBands_flat_window [(10 : ℝ), 10] 2 2 10 (by norm_num) (by norm_num)
    (by intro x hx; simpa using hx)

/-- C10: with at least `period ≥ 1` prices and a non-negative multiplier,
the returned bands are ordered `lower ≤ middle ≤ upper`, since the
computed standard deviation is a square root and hence non-negative. -/
theorem calculateBollingerBands_ordered (data : List ℝ) (period : ℕ)
    (stdDev : ℝ) (hp : 1 ≤ period) (hlen : period ≤ data.length)
    (hsd : 0 ≤ stdDev) :
    ∃ b : Bands,
      calculateBollingerBands data period stdDev = some b ∧
      b.lower ≤ b.middle ∧ b.middle ≤ b.upper := by
  refine ⟨_, calculateBollingerBands_eq data period stdDev (by omega) hlen, ?_, ?_⟩
  · exact sub_le_self _ (mul_nonneg (Real.sqrt_nonneg _) hsd)
  · exact le_add_of_nonneg_right (mul_nonneg (Real.sqrt_nonneg _) hsd)

/-- C10 witness: band ordering at the window `[1, 3]` with `period = 2`,
`stdDev = 2`. -/
theorem calculateBollingerBands_ordered_witness :
    ∃ b : Bands,
      calculateBollingerBands [(1 : ℝ), 3] 2 2 = some b ∧
      b.lower ≤ b.middle ∧ b.middle ≤ b.upper :=
  calculateBollingerBands_ordered [(1 : ℝ), 3] 2 2 (by norm_num) (by norm_num) (by norm_num)
